import Mathlib

set_option maxHeartbeats 1600000
set_option maxRecDepth 8000

namespace ShellStream

/-! Shallow embedding of src/ShellStream.py.

The ANSI escape constants and format_markdown mirror lines 14-29.  The
streaming loop of OpenAIWebWrapper.query_openai_async mirrors lines
164-199, with the two external effects abstracted: the scripted network
stream is a list of Event values (the decoded lines yielded by
response.content, plus a possibly raised transport exception), and
json.loads together with the choices[0].delta.content extraction (a missing
content key defaults to the empty string) is a decode parameter (Except.error models a raised exception,
carrying the exception text).  The ConversationShell callback and turn
handling mirror lines 202-267 over an explicit ShellState record whose
printed field models everything written to stdout.  The request-building
part of query_openai_async (the messages payload, lines 140-162) is not
modelled: no claim refers to its content. -/

def BOLD_CYAN : String := "\x1b[1;96m"

def ITALIC_MAGENTA : String := "\x1b[3;95m"

def UNDERLINE_GREEN : String := "\x1b[4;92m"

def RESET_BLUE : String := "\x1b[0;94m"

def BOLD_ITALIC_MAGENTA : String := "\x1b[1;3;95m"

/-- One lazy search for the closing delimiter cl, mirroring how the Python
non-greedy lazy group grows one character at a time, trying cl first at every
step.  When dotAll is false the content may not cross a newline, as for a
re.sub call without flags=re.DOTALL.  Returns the content and the rest of
the input after the closing delimiter. -/
def findClose (cl : List Char) (dotAll : Bool) : List Char → Option (List Char × List Char)
  | [] => if cl.isPrefixOf [] then some ([], []) else none
  | c :: t =>
    if cl.isPrefixOf (c :: t) then some ([], (c :: t).drop cl.length)
    else if dotAll || c != '\n' then
      match findClose cl dotAll t with
      | some p => some (c :: p.1, p.2)
      | none => none
    else none

/-- re.sub with the pattern  op(.*?)cl  and the replacement  sty\1rst :
scan left to right, at each position try the opening delimiter and then the
lazy close; on a match emit the styled span and resume scanning after the
consumed text.  fuel bounds the number of scan steps (at least one input
character is consumed per step); subst below instantiates it with the input
length, which always suffices. -/
def substAux (op cl : List Char) (dotAll : Bool) (sty rst : List Char) :
    Nat → List Char → List Char
  | 0, s => s
  | _ + 1, [] => []
  | fuel + 1, c :: t =>
    if op.isPrefixOf (c :: t) then
      match findClose cl dotAll ((c :: t).drop op.length) with
      | some p => sty ++ p.1 ++ rst ++ substAux op cl dotAll sty rst fuel p.2
      | none => c :: substAux op cl dotAll sty rst fuel t
    else c :: substAux op cl dotAll sty rst fuel t

def subst (op cl : List Char) (dotAll : Bool) (sty rst : List Char)
    (s : List Char) : List Char :=
  substAux op cl dotAll sty rst s.length s

/-- src/ShellStream.py lines 14-29: the five re.sub calls in source order.
The calls on lines 23 and 27 pass flags=re.DOTALL, the ones on lines 24-26
do not. -/
def format_markdown (text : String) : String :=
  let t1 := subst ['_', '*', '_'] ['_', '*', '_'] true
    BOLD_ITALIC_MAGENTA.data RESET_BLUE.data text.data
  let t2 := subst ['_', '_'] ['_', '_'] false
    UNDERLINE_GREEN.data RESET_BLUE.data t1
  let t3 := subst ['_'] ['_'] false
    ITALIC_MAGENTA.data RESET_BLUE.data t2
  let t4 := subst ['*', '*'] ['*', '*'] false
    BOLD_CYAN.data RESET_BLUE.data t3
  let t5 := subst ['*'] ['*'] true
    ITALIC_MAGENTA.data RESET_BLUE.data t4
  String.mk t5

/-- Reference data from spec section 3: a FormatRule is a (pattern, style)
pair; the pattern is an opening and a closing delimiter plus the
dot-matches-newline flag, which the spec leaves unconstrained and which is
therefore taken from the source. -/
structure FormatRule where
  op : List Char
  cl : List Char
  dotAll : Bool
  sty : List Char

/-- Reference algorithm from spec section 4.1: apply an ordered list of
markup-to-style substitutions, first rule first, each consuming its
delimiter pair non-greedily and resetting the style afterwards. -/
def applyRules (rules : List FormatRule) (text : String) : String :=
  String.mk (rules.foldl
    (fun l r => subst r.op r.cl r.dotAll r.sty RESET_BLUE.data l) text.data)

/-- The four rules of spec section 4.1 in their stated order: combined
bold+italic delimiter, underline delimiter, italic single-char delimiter,
bold double-char delimiter. -/
def specRules4 : List FormatRule :=
  [⟨['_', '*', '_'], ['_', '*', '_'], true, BOLD_ITALIC_MAGENTA.data⟩,
   ⟨['_', '_'], ['_', '_'], false, UNDERLINE_GREEN.data⟩,
   ⟨['_'], ['_'], false, ITALIC_MAGENTA.data⟩,
   ⟨['*', '*'], ['*', '*'], false, BOLD_CYAN.data⟩]

/-- The four spec rules plus the fifth substitution actually present in the
source (line 27): a single-asterisk italic delimiter, applied last, with
dot-matches-newline. -/
def specRules5 : List FormatRule :=
  specRules4 ++ [⟨['*'], ['*'], true, ITALIC_MAGENTA.data⟩]

/-- The ASCII whitespace stripped by Python str.strip() with no argument
(Python additionally strips some Unicode spaces, which none of the inputs
considered here contain). -/
def pyWs (c : Char) : Bool :=
  c == ' ' || c == '\t' || c == '\n' || c == '\r' || c == '\x0b' || c == '\x0c'

/-- Python str.strip(): drop whitespace from both ends. -/
def pyStrip (s : String) : String :=
  String.mk (((s.data.dropWhile pyWs).reverse.dropWhile pyWs).reverse)

/-- src/ShellStream.py line 225: content.endswith(('.', '!', '?', '\n')),
true exactly when the last character is a sentence terminator or newline
(false on the empty string). -/
def endsTerm (content : String) : Bool :=
  match content.data.getLast? with
  | some c => c == '.' || c == '!' || c == '?' || c == '\n'
  | none => false

/-- Substring test (needle occurs contiguously in hay), used to state what
the modelled terminal output does and does not contain. -/
def listContains (needle hay : List Char) : Bool :=
  if needle.isPrefixOf hay then true
  else
    match hay with
    | [] => false
    | _ :: t => listContains needle t

/-- One chat message, as the role/content dictionaries of the source. -/
structure Msg where
  role : String
  content : String
deriving DecidableEq

/-- One step of the scripted network stream consumed by the async-for loop
of query_openai_async: either one decoded line of response.content, or a
transport exception (timeout, connection reset, ...) raised by the
underlying connection, carrying its message text. -/
inductive Event where
  | line (raw : String)
  | raiseErr (msg : String)
deriving DecidableEq

/-- The observable state of ConversationShell: its chat_history and buffer
fields plus everything printed to stdout so far. -/
structure ShellState where
  chat_history : List Msg
  buffer : List String
  printed : String
deriving DecidableEq

/-- Models self.chat_history.append(turn): list append at the end. -/
def ctxAppend (h : List Msg) (m : Msg) : List Msg := h ++ [m]

/-- src/ShellStream.py lines 179-180: a line is skipped when it strips to
the empty string or to "[DONE]" (checked before the "data: " prefix is
removed). -/
def skipLine (raw : String) : Bool :=
  pyStrip raw == "" || pyStrip raw == "[DONE]"

/-- src/ShellStream.py lines 178-183: the payload handed to json.loads is
the stripped line with a leading "data: " removed when present
(line_content[len("data: "):] drops the first six characters). -/
def payload (raw : String) : String :=
  if "data: ".data.isPrefixOf (pyStrip raw).data then
    String.mk ((pyStrip raw).data.drop 6)
  else pyStrip raw

/-- An event the streaming loop survives: a line that is either skipped or
whose payload decodes successfully.  A transport exception is never good. -/
def goodFrame (decode : String → Except String String) : Event → Bool
  | Event.line raw =>
    skipLine raw ||
      match decode (payload raw) with
      | Except.ok _ => true
      | Except.error _ => false
  | Event.raiseErr _ => false

/-- The text deltas actually delivered to the callback, in order: one per
non-skipped line whose payload decodes, stopping at the first decode
failure or transport exception (the loop aborts there). -/
def deltasOf (decode : String → Except String String) : List Event → List String
  | [] => []
  | Event.line raw :: rest =>
    if skipLine raw then deltasOf decode rest
    else
      match decode (payload raw) with
      | Except.ok d => d :: deltasOf decode rest
      | Except.error _ => []
  | Event.raiseErr _ :: _ => []

/-- src/ShellStream.py lines 174-199: the streaming loop of
query_openai_async.  Each good payload delta is appended to
response_content and handed to the callback; skipped lines are ignored; a
decode failure or a transport exception propagates to the outer
except-clause, which returns the string "Error querying OpenAI: " followed
by the exception text (discarding response_content).  Normal completion
returns response_content.strip().  The callback state of type sigma is
threaded explicitly. -/
def runStream {σ : Type} (decode : String → Except String String)
    (cb : σ → String → σ) : List Event → String → σ → String × σ
  | [], acc, st => (pyStrip acc, st)
  | Event.line raw :: rest, acc, st =>
    if skipLine raw then runStream decode cb rest acc st
    else
      match decode (payload raw) with
      | Except.ok d => runStream decode cb rest (acc ++ d) (cb st d)
      | Except.error e => ("Error querying OpenAI: " ++ e, st)
  | Event.raiseErr e :: _, _, st => ("Error querying OpenAI: " ++ e, st)

/-- src/ShellStream.py lines 137-199: query_openai_async, restricted to its
streaming behaviour (the messages payload it builds is not observable
through any claim).  Returns the returned string and the final callback
state. -/
def query_openai_async {σ : Type} (decode : String → Except String String)
    (cb : σ → String → σ) (events : List Event) (st : σ) : String × σ :=
  runStream decode cb events "" st

namespace ConversationShell

/-- src/ShellStream.py lines 206-212: initial shell state; __init__ creates
the empty chat_history and buffer once and reset_shell_formatting prints
the reset escape code with no newline. -/
def initState : ShellState :=
  { chat_history := [], buffer := [], printed := RESET_BLUE }

/-- src/ShellStream.py lines 219-232: display_streaming_output.  The
content is appended to self.buffer; if the content ends with a sentence
terminator or newline, the joined buffer is formatted, printed without a
trailing newline, and the buffer is cleared; otherwise nothing is printed. -/
def display_streaming_output (st : ShellState) (content : String) : ShellState :=
  let buf := st.buffer ++ [content]
  if endsTerm content then
    { st with
      buffer := [],
      printed := st.printed ++ format_markdown (String.join buf) }
  else
    { st with buffer := buf }

/-- The literal printed at the start of every streamed turn
(src/ShellStream.py line 258). -/
def respHeader : String := "\n_*_Response:_*_"

/-- src/ShellStream.py lines 256-267: handle_streaming_response.  It prints
the formatted header (print appends a newline), runs query_openai_async
with display_streaming_output as callback, appends the returned string to
chat_history as an assistant turn, and prints a blank-line separator.  The
except-branch on line 265 is unreachable here because query_openai_async
catches every exception internally and returns a string instead. -/
def handle_streaming_response (decode : String → Except String String)
    (events : List Event) (st : ShellState) : ShellState :=
  let st1 := { st with
    printed := st.printed ++ format_markdown respHeader ++ "\n" }
  let r := query_openai_async decode display_streaming_output events st1
  let st2 := { r.2 with
    chat_history := ctxAppend r.2.chat_history ⟨"assistant", r.1⟩ }
  { st2 with printed := st2.printed ++ "\n\n" ++ "\n" }

/-- src/ShellStream.py lines 234-246: do_search.  The context argument
models the block of text returned by the external
OpenAIWebWrapper.generate_context web call for this query. -/
def do_search (decode : String → Except String String) (events : List Event)
    (context : String) (st : ShellState) (arg : String) : ShellState :=
  if pyStrip arg ≠ "" then
    let stA := { st with
      printed := st.printed ++ "\nChecking the InterWebs for " ++ arg ++ "...\n" }
    if pyStrip context = "" then
      { stA with
        printed := stA.printed ++ "No relevant information found from the search.\n" }
    else
      let stB := { stA with
        chat_history := ctxAppend stA.chat_history
          ⟨"system", "Web Search Context:\n" ++ context⟩ }
      handle_streaming_response decode events stB
  else
    { st with printed := st.printed ++ "Please provide a search query.\n" }

/-- src/ShellStream.py lines 248-254: default.  A line starting with
"search " is routed to do_search on the rest of the line; any other line
is appended to chat_history as a user turn and streamed. -/
def default (decode : String → Except String String) (events : List Event)
    (context : String) (st : ShellState) (line : String) : ShellState :=
  if "search ".data.isPrefixOf line.data then
    do_search decode events context st (String.mk (line.data.drop 7))
  else
    handle_streaming_response decode events
      { st with chat_history := ctxAppend st.chat_history ⟨"user", line⟩ }

end ConversationShell

/-- The streaming payload json.loads receives for a delta whose content is
x, as sent by the chat-completions endpoint (quotes and backslashes inside
x would need JSON escaping; none of the scripted examples contain any). -/
def mkPayload (x : String) : String :=
  "\x7b\"choices\":[\x7b\"delta\":\x7b\"content\":\"" ++ x ++ "\"\x7d\x7d]\x7d"

/-- The delta contents used by the scripted streams below. -/
def demoTable : List String :=
  [" hi ", " Hi.", " Bye.", " Hi there.", "Hello", " world."]

/-- Models json.loads followed by
the choices[0].delta.content extraction on the concrete payloads
used in the scripted examples below: the payload for a tabled delta parses
to that delta; anything else raises json.JSONDecodeError, whose exception
text for a non-JSON payload is the string returned here. -/
def demoDecode (s : String) : Except String String :=
  match demoTable.find? (fun x => s == mkPayload x) with
  | some x => Except.ok x
  | none => Except.error "Expecting value: line 1 column 1 (char 0)"

/-- A scripted well-formed data frame carrying the delta x. -/
def demoFrame (x : String) : Event :=
  Event.line ("data: " ++ mkPayload x)

end ShellStream

namespace ShellStream

/-! Basic String facts used throughout. -/

theorem mk_data (s : String) : String.mk s.data = s := rfl

theorem str_empty_append (s : String) : "" ++ s = s := by
  apply String.ext; simp [String.data_append]

theorem str_append_empty (s : String) : s ++ "" = s := by
  apply String.ext; simp [String.data_append]

theorem str_append_assoc (a b c : String) : a ++ b ++ c = a ++ (b ++ c) := by
  apply String.ext; simp [String.data_append]

theorem foldl_append_eq (ds : List String) :
    ∀ a : String, List.foldl (· ++ ·) a ds = a ++ String.join ds := by
  induction ds with
  | nil => intro a; simp [String.join, str_append_empty]
  | cons d ds ih =>
    intro a
    show List.foldl (· ++ ·) (a ++ d) ds = a ++ String.join (d :: ds)
    rw [ih (a ++ d)]
    show a ++ d ++ String.join ds = a ++ List.foldl (· ++ ·) ("" ++ d) ds
    rw [ih ("" ++ d), str_empty_append, str_append_assoc]

theorem join_cons (d : String) (ds : List String) :
    String.join (d :: ds) = d ++ String.join ds := by
  show List.foldl (· ++ ·) ("" ++ d) ds = d ++ String.join ds
  rw [foldl_append_eq, str_empty_append]

/-! Structure of a successful lazy close search. -/

theorem findClose_some (cl : List Char) (dotAll : Bool) :
    ∀ (s : List Char) (p : List Char × List Char),
      findClose cl dotAll s = some p → s = p.1 ++ cl ++ p.2 := by
  intro s
  induction s with
  | nil =>
    intro p h
    by_cases hp : cl.isPrefixOf ([] : List Char)
    · obtain ⟨u, hu⟩ := List.isPrefixOf_iff_prefix.mp hp
      have hcl : cl = [] := by
        cases cl with
        | nil => rfl
        | cons x xs => simp at hu
      simp [findClose, hp] at h
      subst hcl
      simp [← h]
    · simp [findClose, hp] at h
  | cons c t ih =>
    intro p h
    by_cases hp : cl.isPrefixOf (c :: t)
    · obtain ⟨u, hu⟩ := List.isPrefixOf_iff_prefix.mp hp
      simp [findClose, hp] at h
      have hdrop : (c :: t).drop cl.length = u := by
        rw [← hu]; exact List.drop_left cl u
      rw [← h]
      simp
      rw [hdrop, hu]
    · simp only [findClose] at h
      rw [if_neg hp] at h
      by_cases hd : (dotAll || c != '\n') = true
      · rw [if_pos hd] at h
        cases hfc : findClose cl dotAll t with
        | none => rw [hfc] at h; simp at h
        | some q =>
          rw [hfc] at h
          simp at h
          have := ih q hfc
          rw [← h]
          simp [this]
      · rw [if_neg hd] at h; simp at h

/-! If the opening delimiter never has a successful close, the substitution
is the identity. -/

theorem substAux_id (op cl : List Char) (dotAll : Bool) (sty rst : List Char) :
    ∀ (fuel : Nat) (s : List Char),
      (∀ s₂, s₂ <:+ s → op.isPrefixOf s₂ = true →
        findClose cl dotAll (s₂.drop op.length) = none) →
      substAux op cl dotAll sty rst fuel s = s := by
  intro fuel
  induction fuel with
  | zero => intro s _; rfl
  | succ n ih =>
    intro s H
    cases s with
    | nil => rfl
    | cons c t =>
      have Ht : ∀ s₂, s₂ <:+ t → op.isPrefixOf s₂ = true →
          findClose cl dotAll (s₂.drop op.length) = none :=
        fun s₂ hs hp => H s₂ (hs.trans (List.suffix_cons c t)) hp
      by_cases hp : op.isPrefixOf (c :: t) = true
      · have hc := H (c :: t) (List.suffix_refl _) hp
        simp only [substAux, hp, if_true, hc]
        rw [ih t Ht]
      · simp only [substAux, hp]
        rw [ih t Ht]
        simp

theorem subst_id (op cl : List Char) (dotAll : Bool) (sty rst : List Char)
    (s : List Char)
    (H : ∀ s₂, s₂ <:+ s → op.isPrefixOf s₂ = true →
      findClose cl dotAll (s₂.drop op.length) = none) :
    subst op cl dotAll sty rst s = s :=
  substAux_id op cl dotAll sty rst s.length s H

theorem count_of_suffix (a : Char) {s₂ s : List Char} (h : s₂ <:+ s) :
    List.count a s₂ ≤ List.count a s := by
  obtain ⟨pre, hpre⟩ := h
  rw [← hpre, List.count_append]
  omega

end ShellStream

namespace ShellStream

/-! Identity of each of the five substitutions when not enough delimiter
characters are present. -/

theorem subst1_id (sty rst : List Char) (s : List Char)
    (h : List.count '_' s ≤ 1) :
    subst ['_', '*', '_'] ['_', '*', '_'] true sty rst s = s := by
  apply subst_id
  intro s₂ hs hp
  obtain ⟨u, hu⟩ := List.isPrefixOf_iff_prefix.mp hp
  have h2 : 2 ≤ List.count '_' s₂ := by
    rw [← hu, List.count_append]
    have : List.count '_' ['_', '*', '_'] = 2 := by decide
    omega
  have h3 := count_of_suffix '_' hs
  omega

theorem subst2_id (sty rst : List Char) (s : List Char)
    (h : List.count '_' s ≤ 1) :
    subst ['_', '_'] ['_', '_'] false sty rst s = s := by
  apply subst_id
  intro s₂ hs hp
  obtain ⟨u, hu⟩ := List.isPrefixOf_iff_prefix.mp hp
  have h2 : 2 ≤ List.count '_' s₂ := by
    rw [← hu, List.count_append]
    have : List.count '_' ['_', '_'] = 2 := by decide
    omega
  have h3 := count_of_suffix '_' hs
  omega

theorem subst3_id (sty rst : List Char) (s : List Char)
    (h : List.count '_' s ≤ 1) :
    subst ['_'] ['_'] false sty rst s = s := by
  apply subst_id
  intro s₂ hs hp
  obtain ⟨u, hu⟩ := List.isPrefixOf_iff_prefix.mp hp
  have hdrop : s₂.drop 1 = u := by
    rw [← hu]; rfl
  show findClose ['_'] false (s₂.drop (['_'] : List Char).length) = none
  rw [show (['_'] : List Char).length = 1 from rfl, hdrop]
  cases hfc : findClose ['_'] false u with
  | none => rfl
  | some p =>
    exfalso
    have hdec := findClose_some _ _ _ _ hfc
    have hcu : 1 ≤ List.count '_' u := by
      rw [hdec, List.count_append, List.count_append]
      have : List.count '_' ['_'] = 1 := by decide
      omega
    have hs2 : 2 ≤ List.count '_' s₂ := by
      rw [← hu, List.count_append]
      have : List.count '_' ['_'] = 1 := by decide
      omega
    have h3 := count_of_suffix '_' hs
    omega

theorem subst4_id (sty rst : List Char) (s : List Char)
    (h : List.count '*' s ≤ 3) :
    subst ['*', '*'] ['*', '*'] false sty rst s = s := by
  apply subst_id
  intro s₂ hs hp
  obtain ⟨u, hu⟩ := List.isPrefixOf_iff_prefix.mp hp
  have hdrop : s₂.drop 2 = u := by
    rw [← hu]; rfl
  show findClose ['*', '*'] false (s₂.drop (['*', '*'] : List Char).length) = none
  rw [show (['*', '*'] : List Char).length = 2 from rfl, hdrop]
  cases hfc : findClose ['*', '*'] false u with
  | none => rfl
  | some p =>
    exfalso
    have hdec := findClose_some _ _ _ _ hfc
    have hcu : 2 ≤ List.count '*' u := by
      rw [hdec, List.count_append, List.count_append]
      have : List.count '*' ['*', '*'] = 2 := by decide
      omega
    have hs2 : 4 ≤ List.count '*' s₂ := by
      rw [← hu, List.count_append]
      have : List.count '*' ['*', '*'] = 2 := by decide
      omega
    have h3 := count_of_suffix '*' hs
    omega

theorem subst5_id (sty rst : List Char) (s : List Char)
    (h : List.count '*' s ≤ 1) :
    subst ['*'] ['*'] true sty rst s = s := by
  apply subst_id
  intro s₂ hs hp
  obtain ⟨u, hu⟩ := List.isPrefixOf_iff_prefix.mp hp
  have hdrop : s₂.drop 1 = u := by
    rw [← hu]; rfl
  show findClose ['*'] true (s₂.drop (['*'] : List Char).length) = none
  rw [show (['*'] : List Char).length = 1 from rfl, hdrop]
  cases hfc : findClose ['*'] true u with
  | none => rfl
  | some p =>
    exfalso
    have hdec := findClose_some _ _ _ _ hfc
    have hcu : 1 ≤ List.count '*' u := by
      rw [hdec, List.count_append, List.count_append]
      have : List.count '*' ['*'] = 1 := by decide
      omega
    have hs2 : 2 ≤ List.count '*' s₂ := by
      rw [← hu, List.count_append]
      have : List.count '*' ['*'] = 1 := by decide
      omega
    have h3 := count_of_suffix '*' hs
    omega

/-- format_markdown is the identity whenever the input holds at most one
underscore and at most one asterisk: no delimiter pair can then close. -/
theorem format_markdown_id (s : String) (hu : List.count '_' s.data ≤ 1)
    (hst : List.count '*' s.data ≤ 1) : format_markdown s = s := by
  simp only [format_markdown]
  rw [subst1_id _ _ _ hu, subst2_id _ _ _ hu, subst3_id _ _ _ hu,
      subst4_id _ _ _ (by omega), subst5_id _ _ _ hst]

/-! A pair of asterisks always closes under the fifth, dot-all rule. -/

theorem findClose_of_mem {c : Char} :
    ∀ {r : List Char}, c ∈ r → ∃ p, findClose [c] true r = some p := by
  intro r
  induction r with
  | nil => intro h; cases h
  | cons a t ih =>
    intro h
    by_cases ha : a = c
    · subst ha
      refine ⟨([], t), ?_⟩
      have : ([a] : List Char).isPrefixOf (a :: t) = true := by
        simp [List.isPrefixOf]
      simp [findClose, this]
    · have hmem : c ∈ t := by
        rcases List.mem_cons.mp h with h' | h'
        · exact absurd h'.symm ha
        · exact h'
      obtain ⟨p, hp⟩ := ih hmem
      refine ⟨(a :: p.1, p.2), ?_⟩
      have hpre : ([c] : List Char).isPrefixOf (a :: t) = false := by
        simp [List.isPrefixOf]
        intro hca
        exact absurd hca.symm ha
      simp [findClose, hpre, hp]

theorem esc_mem_substAux5 (sty rst : List Char) (hsty : '\x1b' ∈ sty) :
    ∀ (fuel : Nat) (s : List Char), s.length ≤ fuel + 1 →
      2 ≤ List.count '*' s →
      '\x1b' ∈ substAux ['*'] ['*'] true sty rst fuel s := by
  intro fuel
  induction fuel with
  | zero =>
    intro s hl hc
    exfalso
    have := List.count_le_length '*' s
    omega
  | succ n ih =>
    intro s hl hc
    cases s with
    | nil => simp at hc
    | cons a t =>
      by_cases ha : a = '*'
      · subst ha
        have hpre : (['*'] : List Char).isPrefixOf ('*' :: t) = true := by
          simp [List.isPrefixOf]
        have hmem : '*' ∈ t := by
          apply List.count_pos_iff.mp
          have h' : List.count '*' ('*' :: t) = List.count '*' t + 1 := by
            rw [List.count_cons]; simp
          omega
        obtain ⟨p, hp⟩ := findClose_of_mem hmem
        have hdrop : ('*' :: t).drop (['*'] : List Char).length = t := rfl
        simp only [substAux, hpre, if_true, hdrop, hp]
        simp [List.mem_append, hsty]
      · have hpre : (['*'] : List Char).isPrefixOf (a :: t) = false := by
          simp [List.isPrefixOf]
          intro hca
          exact absurd hca.symm ha
        have hct : 2 ≤ List.count '*' t := by
          have h' : List.count '*' (a :: t) = List.count '*' t := by
            rw [List.count_cons]; simp [ha]
          omega
        have hlt : t.length ≤ n + 1 := by
          have h' : (a :: t).length = t.length + 1 := rfl
          omega
        have hmem := ih t hlt hct
        simp only [substAux, hpre]
        simp only [Bool.false_eq_true, if_false]
        exact List.mem_cons_of_mem a hmem

/-- Rendering any input with exactly two asterisks and no underscore
inserts an ANSI escape character. -/
theorem esc_mem_format (s : String) (hu : '_' ∉ s.data)
    (hc : List.count '*' s.data = 2) : '\x1b' ∈ (format_markdown s).data := by
  have hu0 : List.count '_' s.data = 0 := List.count_eq_zero.mpr hu
  simp only [format_markdown]
  rw [subst1_id _ _ _ (by omega), subst2_id _ _ _ (by omega),
      subst3_id _ _ _ (by omega), subst4_id _ _ _ (by omega)]
  show '\x1b' ∈ subst ['*'] ['*'] true ITALIC_MAGENTA.data RESET_BLUE.data s.data
  apply esc_mem_substAux5
  · decide
  · exact Nat.le_succ _
  · omega

end ShellStream

namespace ShellStream

/-! The callback state after any run is the fold of the callback over the
delivered deltas, whether the stream completes or aborts. -/

theorem runStream_state {σ : Type} (decode : String → Except String String)
    (cb : σ → String → σ) :
    ∀ (evs : List Event) (acc : String) (st : σ),
      (runStream decode cb evs acc st).2 =
        List.foldl cb st (deltasOf decode evs) := by
  intro evs
  induction evs with
  | nil => intro acc st; rfl
  | cons ev rest ih =>
    intro acc st
    cases ev with
    | line raw =>
      by_cases hskip : skipLine raw = true
      · simp only [runStream, deltasOf, hskip, if_true]
        exact ih acc st
      · have hskip' : skipLine raw = false := by
          simpa using hskip
        cases hdec : decode (payload raw) with
        | ok d =>
          simp only [runStream, deltasOf, hskip', hdec, Bool.false_eq_true,
            if_false, List.foldl]
          exact ih (acc ++ d) (cb st d)
        | error e =>
          simp only [runStream, deltasOf, hskip', hdec, Bool.false_eq_true,
            if_false, List.foldl]
    | raiseErr e => rfl

/-- On a scripted stream every frame of which is survived, the call returns
the stripped concatenation of the accumulator and all deltas, and the
callback has been applied to exactly the delivered deltas, in order. -/
theorem runStream_clean {σ : Type} (decode : String → Except String String)
    (cb : σ → String → σ) :
    ∀ (evs : List Event) (acc : String) (st : σ),
      (∀ ev ∈ evs, goodFrame decode ev = true) →
      runStream decode cb evs acc st =
        (pyStrip (acc ++ String.join (deltasOf decode evs)),
         List.foldl cb st (deltasOf decode evs)) := by
  intro evs
  induction evs with
  | nil =>
    intro acc st _
    simp only [runStream, deltasOf, List.foldl]
    rw [show String.join [] = "" from rfl, str_append_empty]
  | cons ev rest ih =>
    intro acc st h
    have hev : goodFrame decode ev = true := h ev (List.mem_cons_self ev rest)
    have hrest : ∀ ev ∈ rest, goodFrame decode ev = true :=
      fun e he => h e (List.mem_cons_of_mem ev he)
    cases ev with
    | line raw =>
      by_cases hskip : skipLine raw = true
      · simp only [runStream, deltasOf, hskip, if_true]
        exact ih acc st hrest
      · have hskip' : skipLine raw = false := by
          simpa using hskip
        cases hdec : decode (payload raw) with
        | ok d =>
          simp only [runStream, deltasOf, hskip', hdec, Bool.false_eq_true,
            if_false, List.foldl]
          rw [ih (acc ++ d) (cb st d) hrest, join_cons, ← str_append_assoc]
        | error e =>
          exfalso
          simp [goodFrame, hskip', hdec] at hev
    | raiseErr e =>
      exfalso
      simp [goodFrame] at hev

/-- A line whose payload fails to decode aborts the whole call: the frames
after it are never processed, the deltas before it are the only ones
delivered, and the returned string is the error text (the accumulated
response_content is discarded). -/
theorem runStream_fail_line {σ : Type} (decode : String → Except String String)
    (cb : σ → String → σ) :
    ∀ (pre : List Event) (raw : String) (e : String) (post : List Event)
      (acc : String) (st : σ),
      (∀ ev ∈ pre, goodFrame decode ev = true) →
      skipLine raw = false → decode (payload raw) = Except.error e →
      runStream decode cb (pre ++ Event.line raw :: post) acc st =
        ("Error querying OpenAI: " ++ e,
         List.foldl cb st (deltasOf decode pre)) := by
  intro pre
  induction pre with
  | nil =>
    intro raw e post acc st _ hskip hdec
    simp only [List.nil_append, runStream, hskip, Bool.false_eq_true, if_false,
      hdec, deltasOf, List.foldl]
  | cons ev rest ih =>
    intro raw e post acc st h hskip hdec
    have hev : goodFrame decode ev = true := h ev (List.mem_cons_self ev rest)
    have hrest : ∀ ev ∈ rest, goodFrame decode ev = true :=
      fun x hx => h x (List.mem_cons_of_mem ev hx)
    cases ev with
    | line raw0 =>
      by_cases hskip0 : skipLine raw0 = true
      · simp only [List.cons_append, runStream, deltasOf, hskip0, if_true]
        exact ih raw e post acc st hrest hskip hdec
      · have hskip0' : skipLine raw0 = false := by
          simpa using hskip0
        cases hdec0 : decode (payload raw0) with
        | ok d =>
          simp only [List.cons_append, runStream, deltasOf, hskip0', hdec0,
            Bool.false_eq_true, if_false, List.foldl]
          exact ih raw e post (acc ++ d) (cb st d) hrest hskip hdec
        | error e0 =>
          exfalso
          simp [goodFrame, hskip0', hdec0] at hev
    | raiseErr e0 =>
      exfalso
      simp [goodFrame] at hev

/-- A transport exception raised by the connection aborts the whole call in
the same way. -/
theorem runStream_fail_raise {σ : Type} (decode : String → Except String String)
    (cb : σ → String → σ) :
    ∀ (pre : List Event) (e : String) (post : List Event)
      (acc : String) (st : σ),
      (∀ ev ∈ pre, goodFrame decode ev = true) →
      runStream decode cb (pre ++ Event.raiseErr e :: post) acc st =
        ("Error querying OpenAI: " ++ e,
         List.foldl cb st (deltasOf decode pre)) := by
  intro pre
  induction pre with
  | nil =>
    intro e post acc st _
    simp only [List.nil_append, runStream, deltasOf, List.foldl]
  | cons ev rest ih =>
    intro e post acc st h
    have hev : goodFrame decode ev = true := h ev (List.mem_cons_self ev rest)
    have hrest : ∀ ev ∈ rest, goodFrame decode ev = true :=
      fun x hx => h x (List.mem_cons_of_mem ev hx)
    cases ev with
    | line raw0 =>
      by_cases hskip0 : skipLine raw0 = true
      · simp only [List.cons_append, runStream, deltasOf, hskip0, if_true]
        exact ih e post acc st hrest
      · have hskip0' : skipLine raw0 = false := by
          simpa using hskip0
        cases hdec0 : decode (payload raw0) with
        | ok d =>
          simp only [List.cons_append, runStream, deltasOf, hskip0', hdec0,
            Bool.false_eq_true, if_false, List.foldl]
          exact ih e post (acc ++ d) (cb st d) hrest
        | error e0 =>
          exfalso
          simp [goodFrame, hskip0', hdec0] at hev
    | raiseErr e0 =>
      exfalso
      simp [goodFrame] at hev

end ShellStream

namespace ShellStream

/-! Behaviour of the display callback and of one whole streamed turn. -/

theorem endsTerm_iff (d : String) :
    endsTerm d = true ↔
      ∃ c, d.data.getLast? = some c ∧
        (c = '.' ∨ c = '!' ∨ c = '?' ∨ c = '\n') := by
  cases h : d.data.getLast? with
  | none => simp [endsTerm, h]
  | some c => simp [endsTerm, h, or_assoc]

theorem display_term (st : ShellState) (d : String) (h : endsTerm d = true) :
    ConversationShell.display_streaming_output st d =
      { st with
        buffer := [],
        printed := st.printed ++ format_markdown (String.join (st.buffer ++ [d])) } := by
  simp [ConversationShell.display_streaming_output, h]

theorem display_nonterm (st : ShellState) (d : String) (h : endsTerm d = false) :
    ConversationShell.display_streaming_output st d =
      { st with buffer := st.buffer ++ [d] } := by
  simp [ConversationShell.display_streaming_output, h]

theorem foldl_display_nonterm :
    ∀ (ds : List String) (st : ShellState), (∀ d ∈ ds, endsTerm d = false) →
      List.foldl ConversationShell.display_streaming_output st ds =
        { st with buffer := st.buffer ++ ds } := by
  intro ds
  induction ds with
  | nil =>
    intro st _
    cases st
    simp
  | cons d ds ih =>
    intro st h
    have hd : endsTerm d = false := h d (List.mem_cons_self d ds)
    have hds : ∀ x ∈ ds, endsTerm x = false :=
      fun x hx => h x (List.mem_cons_of_mem d hx)
    simp only [List.foldl]
    rw [display_nonterm st d hd, ih _ hds]
    simp

theorem display_chat (st : ShellState) (d : String) :
    (ConversationShell.display_streaming_output st d).chat_history =
      st.chat_history := by
  by_cases h : endsTerm d = true
  · rw [display_term st d h]
  · rw [display_nonterm st d (by simpa using h)]

theorem foldl_display_chat :
    ∀ (ds : List String) (st : ShellState),
      (List.foldl ConversationShell.display_streaming_output st ds).chat_history =
        st.chat_history := by
  intro ds
  induction ds with
  | nil => intro st; rfl
  | cons d ds ih =>
    intro st
    simp only [List.foldl]
    rw [ih, display_chat]

/-- One whole streamed turn over a clean stream: the header is printed, the
deltas are folded through the display callback, the stripped concatenation
is committed as an assistant turn, and the blank-line separator is printed.
The buffer field is touched only by the display callback. -/
theorem handle_clean (decode : String → Except String String)
    (evs : List Event) (st : ShellState)
    (h : ∀ ev ∈ evs, goodFrame decode ev = true) :
    ConversationShell.handle_streaming_response decode evs st =
      (let st1 := { st with
        printed := st.printed ++ format_markdown ConversationShell.respHeader ++ "\n" }
       let ds := deltasOf decode evs
       let mid := List.foldl ConversationShell.display_streaming_output st1 ds
       { mid with
         chat_history := mid.chat_history ++ [⟨"assistant", pyStrip (String.join ds)⟩],
         printed := mid.printed ++ "\n\n" ++ "\n" }) := by
  simp only [ConversationShell.handle_streaming_response, query_openai_async,
    ctxAppend]
  rw [runStream_clean decode _ evs "" _ h, str_empty_append]

/-- Every streamed turn commits exactly one assistant turn at the end of
chat_history, whatever the stream contained. -/
theorem handle_chat (decode : String → Except String String)
    (evs : List Event) (st : ShellState) :
    ∃ resp : String,
      (ConversationShell.handle_streaming_response decode evs st).chat_history =
        st.chat_history ++ [⟨"assistant", resp⟩] := by
  simp only [ConversationShell.handle_streaming_response, query_openai_async,
    ctxAppend]
  refine ⟨(runStream decode ConversationShell.display_streaming_output evs ""
    { st with
      printed := st.printed ++ format_markdown ConversationShell.respHeader ++ "\n" }).1,
    ?_⟩
  rw [runStream_state, foldl_display_chat]

/-- One whole streamed turn that hits a transport exception after a run of
clean frames: the deltas received so far are folded through the display callback,
and the error string is committed as the assistant turn; the partial text
does not appear in it. -/
theorem handle_fail_raise (decode : String → Except String String)
    (pre : List Event) (e : String) (post : List Event) (st : ShellState)
    (h : ∀ ev ∈ pre, goodFrame decode ev = true) :
    ConversationShell.handle_streaming_response decode
        (pre ++ Event.raiseErr e :: post) st =
      (let st1 := { st with
        printed := st.printed ++ format_markdown ConversationShell.respHeader ++ "\n" }
       let mid := List.foldl ConversationShell.display_streaming_output st1
         (deltasOf decode pre)
       { mid with
         chat_history := mid.chat_history ++
           [⟨"assistant", "Error querying OpenAI: " ++ e⟩],
         printed := mid.printed ++ "\n\n" ++ "\n" }) := by
  simp only [ConversationShell.handle_streaming_response, query_openai_async,
    ctxAppend]
  rw [runStream_fail_raise decode _ pre e post "" _ h]

end ShellStream

namespace ShellStream

/-- Claim C6, counterexample: format_markdown is not the four-rule
reference algorithm of the spec.  On the input with a single-asterisk
delimiter pair the four rules leave the text unchanged, while the source's
fifth substitution styles it. -/
theorem C6_four_rules_cex :
    format_markdown "*a*" ≠ applyRules specRules4 "*a*" := by
  decide

/-- Claim C6 (amended): for every input text, format_markdown equals the
reference algorithm that applies exactly five substitutions in this strict
order — combined bold+italic delimiter, underline delimiter, italic
single-underscore delimiter, bold double-asterisk delimiter, and finally an
italic single-asterisk delimiter — each consuming its delimiter pair
non-greedily, and applies no other substitution. -/
theorem C6_five_rules (s : String) :
    format_markdown s = applyRules specRules5 s := by
  simp [format_markdown, applyRules, specRules5, specRules4]

/-- Claim C7: format_markdown is total and deterministic by construction;
for every text with no markup (no underscore and no asterisk) it is the
identity, and an unmatched single delimiter of either kind also passes
through unchanged rather than causing a failure. -/
theorem C7_render_identity :
    ∀ s : String,
      (('_' ∉ s.data ∧ '*' ∉ s.data) → format_markdown s = s) ∧
      (('_' ∉ s.data ∧ List.count '*' s.data ≤ 1) → format_markdown s = s) ∧
      (('*' ∉ s.data ∧ List.count '_' s.data ≤ 1) → format_markdown s = s) := by
  intro s
  refine ⟨?_, ?_, ?_⟩
  · rintro ⟨h1, h2⟩
    have hu : List.count '_' s.data = 0 := List.count_eq_zero.mpr h1
    have hst : List.count '*' s.data = 0 := List.count_eq_zero.mpr h2
    exact format_markdown_id s (by omega) (by omega)
  · rintro ⟨h1, h2⟩
    have hu : List.count '_' s.data = 0 := List.count_eq_zero.mpr h1
    exact format_markdown_id s (by omega) h2
  · rintro ⟨h1, h2⟩
    have hst : List.count '*' s.data = 0 := List.count_eq_zero.mpr h1
    exact format_markdown_id s h2 (by omega)

/-- Claim C7, witness: a concrete markup-free text renders to itself. -/
theorem C7_render_identity_witness :
    format_markdown "plain text, no markup here." = "plain text, no markup here." :=
  (C7_render_identity "plain text, no markup here.").1 ⟨by decide, by decide⟩

/-- Claim C10: formatting is applied per flushed segment, not to the whole
response.  When an asterisk delimiter pair is split across a flush boundary
(one asterisk in each of two terminator-ended segments, no other markup
characters), each segment renders to itself, so the pipeline prints the
delimiter characters literally and unstyled; rendering the concatenation
instead inserts ANSI styling, so concatenating the rendered segments
differs from rendering the concatenation. -/
theorem C10_per_segment_rendering :
    ∀ (d1 d2 : String),
      List.count '*' d1.data = 1 → List.count '*' d2.data = 1 →
      '_' ∉ d1.data → '_' ∉ d2.data →
      '\x1b' ∉ d1.data → '\x1b' ∉ d2.data →
      endsTerm d1 = true → endsTerm d2 = true →
      format_markdown d1 = d1 ∧
      format_markdown d2 = d2 ∧
      (∀ st : ShellState, st.buffer = [] →
        List.foldl ConversationShell.display_streaming_output st [d1, d2] =
          { st with printed := st.printed ++ d1 ++ d2 }) ∧
      '\x1b' ∈ (format_markdown (d1 ++ d2)).data ∧
      format_markdown (d1 ++ d2) ≠ d1 ++ d2 := by
  intro d1 d2 hc1 hc2 hu1 hu2 he1 he2 ht1 ht2
  have hu1' : List.count '_' d1.data = 0 := List.count_eq_zero.mpr hu1
  have hu2' : List.count '_' d2.data = 0 := List.count_eq_zero.mpr hu2
  have hid1 : format_markdown d1 = d1 := format_markdown_id d1 (by omega) (by omega)
  have hid2 : format_markdown d2 = d2 := format_markdown_id d2 (by omega) (by omega)
  have hjoin : ∀ d : String, String.join ([] ++ [d]) = d := by
    intro d
    rw [List.nil_append, join_cons, show String.join [] = "" from rfl,
      str_append_empty]
  have hesc : '\x1b' ∈ (format_markdown (d1 ++ d2)).data := by
    apply esc_mem_format
    · rw [String.data_append]
      simp [List.mem_append, hu1, hu2]
    · rw [String.data_append, List.count_append]
      omega
  have hne : format_markdown (d1 ++ d2) ≠ d1 ++ d2 := by
    intro heq
    rw [heq, String.data_append] at hesc
    rcases List.mem_append.mp hesc with h | h
    · exact he1 h
    · exact he2 h
  refine ⟨hid1, hid2, ?_, hesc, hne⟩
  intro st hbuf
  simp only [List.foldl]
  rw [display_term st d1 ht1, hbuf]
  rw [display_term _ d2 ht2]
  simp only []
  rw [hjoin d1, hjoin d2, hid1, hid2]

/-- Claim C10, witness: the split pair asterisk-a-dot / b-asterisk-dot. -/
theorem C10_per_segment_rendering_witness :
    format_markdown "*a." = "*a." ∧ format_markdown "b*." = "b*." ∧
    List.foldl ConversationShell.display_streaming_output
      (⟨[], [], ""⟩ : ShellState) ["*a.", "b*."] = ⟨[], [], "*a.b*."⟩ ∧
    '\x1b' ∈ (format_markdown ("*a." ++ "b*.")).data ∧
    format_markdown ("*a." ++ "b*.") ≠ "*a." ++ "b*." := by
  obtain ⟨h1, h2, h3, h4, h5⟩ :=
    C10_per_segment_rendering "*a." "b*." (by decide) (by decide) (by decide)
      (by decide) (by decide) (by decide) (by decide) (by decide)
  exact ⟨h1, h2, (h3 ⟨[], [], ""⟩ rfl).trans (by decide), h4, h5⟩

/-- Claim C4: display_streaming_output appends every delta to the
accumulator, and flushes exactly when the last character of the delta is one of
period, exclamation mark, question mark, or newline: then the joined
accumulator is passed through format_markdown, printed, and the accumulator
is cleared; otherwise nothing is printed.  Feeding the scripted deltas
"Hello", " world.", " Next" from an empty state prints exactly one
segment, "Hello world.", after the second delta and nothing after the
third. -/
theorem C4_feed :
    (∀ (st : ShellState) (d : String),
      ((∃ c, d.data.getLast? = some c ∧
          (c = '.' ∨ c = '!' ∨ c = '?' ∨ c = '\n')) →
        ConversationShell.display_streaming_output st d =
          { st with
            buffer := [],
            printed := st.printed ++
              format_markdown (String.join (st.buffer ++ [d])) }) ∧
      ((∀ c, d.data.getLast? = some c →
          ¬(c = '.' ∨ c = '!' ∨ c = '?' ∨ c = '\n')) →
        ConversationShell.display_streaming_output st d =
          { st with buffer := st.buffer ++ [d] })) ∧
    ((ConversationShell.display_streaming_output
        (⟨[], [], ""⟩ : ShellState) "Hello").printed = "" ∧
     (ConversationShell.display_streaming_output
        (⟨[], [], ""⟩ : ShellState) "Hello").buffer = ["Hello"] ∧
     (ConversationShell.display_streaming_output
        (ConversationShell.display_streaming_output
          (⟨[], [], ""⟩ : ShellState) "Hello") " world.").printed =
        "Hello world." ∧
     (ConversationShell.display_streaming_output
        (ConversationShell.display_streaming_output
          (⟨[], [], ""⟩ : ShellState) "Hello") " world.").buffer = [] ∧
     (ConversationShell.display_streaming_output
        (ConversationShell.display_streaming_output
          (ConversationShell.display_streaming_output
            (⟨[], [], ""⟩ : ShellState) "Hello") " world.") " Next").printed =
        "Hello world." ∧
     (ConversationShell.display_streaming_output
        (ConversationShell.display_streaming_output
          (ConversationShell.display_streaming_output
            (⟨[], [], ""⟩ : ShellState) "Hello") " world.") " Next").buffer =
        [" Next"]) := by
  constructor
  · intro st d
    constructor
    · intro hex
      exact display_term st d ((endsTerm_iff d).mpr hex)
    · intro hall
      have hfalse : endsTerm d = false := by
        by_cases hterm : endsTerm d = true
        · obtain ⟨c, hc, hor⟩ := (endsTerm_iff d).mp hterm
          exact absurd hor (hall c hc)
        · simpa using hterm
      exact display_nonterm st d hfalse
  · decide

/-- Claim C4, witness: a concrete terminator-ended delta flushes. -/
theorem C4_feed_witness :
    ConversationShell.display_streaming_output (⟨[], [], ""⟩ : ShellState) "ok." =
      ⟨[], [], "ok."⟩ := by
  have h := (C4_feed.1 ⟨[], [], ""⟩ "ok.").1 ⟨'.', by decide, Or.inl rfl⟩
  exact h.trans (by decide)

end ShellStream

namespace ShellStream

/-- Claim C1, counterexample: for the scripted one-frame stream whose delta
carries surrounding whitespace, the callback receives exactly that delta,
but the returned fullText is the stripped concatenation, not the
concatenation itself (the source returns response_content.strip()). -/
theorem C1_concat_cex :
    (query_openai_async demoDecode (fun (l : List String) d => l ++ [d])
        [demoFrame " hi "] ([] : List String)).2 = [" hi "] ∧
    (query_openai_async demoDecode (fun (l : List String) d => l ++ [d])
        [demoFrame " hi "] ([] : List String)).1 ≠ String.join [" hi "] := by
  decide

/-- Claim C1 (amended): for every scripted stream of survived frames and
every callback, the callback is applied exactly once per delivered delta,
in arrival order (the final callback state is the left fold of the callback
over the delta list), and the returned fullText equals the concatenation of
all deltas in order with leading and trailing whitespace stripped, as by
Python str.strip(). -/
theorem C1_stream_order {σ : Type} (decode : String → Except String String)
    (cb : σ → String → σ) (evs : List Event) (st : σ)
    (h : ∀ ev ∈ evs, goodFrame decode ev = true) :
    query_openai_async decode cb evs st =
      (pyStrip (String.join (deltasOf decode evs)),
       List.foldl cb st (deltasOf decode evs)) := by
  show runStream decode cb evs "" st = _
  rw [runStream_clean decode cb evs "" st h, str_empty_append]

/-- Claim C1, witness: a concrete two-frame stream. -/
theorem C1_stream_order_witness :
    query_openai_async demoDecode (fun (l : List String) d => l ++ [d])
        [demoFrame "Hello", demoFrame " world."] ([] : List String) =
      ("Hello world.", ["Hello", " world."]) := by
  have h := C1_stream_order demoDecode (fun (l : List String) d => l ++ [d])
    [demoFrame "Hello", demoFrame " world."] ([] : List String) (by decide)
  exact h.trans (by decide)

/-- Claim C2, counterexample: a scripted stream good-bad-good.  The frame
whose payload fails to parse is not skipped: the call aborts there with the
error string, the accumulated text is discarded, and the well-formed frame
after the malformed one is never decoded nor delivered. -/
theorem C2_skip_cex :
    query_openai_async demoDecode (fun (l : List String) d => l ++ [d])
        [demoFrame " Hi.", Event.line "data: not json", demoFrame " Bye."]
        ([] : List String) =
      ("Error querying OpenAI: Expecting value: line 1 column 1 (char 0)",
       [" Hi."]) ∧
    " Bye." ∉ (query_openai_async demoDecode (fun (l : List String) d => l ++ [d])
        [demoFrame " Hi.", Event.line "data: not json", demoFrame " Bye."]
        ([] : List String)).2 := by
  decide

/-- Claim C2 (amended): a frame whose payload fails to parse terminates the
stream and fails the call.  Because the json.JSONDecodeError handler is
commented out in the source, the exception reaches the outer except-clause:
the call returns the error string, only the deltas before the malformed
frame were delivered to the callback, and no frame after it is processed. -/
theorem C2_malformed_aborts {σ : Type} (decode : String → Except String String)
    (cb : σ → String → σ) (pre : List Event) (raw e : String)
    (post : List Event) (st : σ)
    (h : ∀ ev ∈ pre, goodFrame decode ev = true)
    (hskip : skipLine raw = false)
    (hdec : decode (payload raw) = Except.error e) :
    query_openai_async decode cb (pre ++ Event.line raw :: post) st =
      ("Error querying OpenAI: " ++ e,
       List.foldl cb st (deltasOf decode pre)) := by
  show runStream decode cb (pre ++ Event.line raw :: post) "" st = _
  exact runStream_fail_line decode cb pre raw e post "" st h hskip hdec

/-- Claim C2, witness: the good-bad-good stream of the counterexample. -/
theorem C2_malformed_aborts_witness :
    query_openai_async demoDecode (fun (l : List String) d => l ++ [d])
        ([demoFrame " Hi."] ++ Event.line "data: not json" :: [demoFrame " Bye."])
        ([] : List String) =
      ("Error querying OpenAI: Expecting value: line 1 column 1 (char 0)",
       [" Hi."]) := by
  have h := C2_malformed_aborts demoDecode (fun (l : List String) d => l ++ [d])
    [demoFrame " Hi."] "data: not json"
    "Expecting value: line 1 column 1 (char 0)" [demoFrame " Bye."]
    ([] : List String) (by decide) (by decide) rfl
  exact h.trans (by decide)

/-- Claim C3, counterexample: a turn whose stream raises a transport error
after one delivered delta.  The partial text " Hi there." is not carried in
the result (the assistant turn holds only the error string), the turn IS
committed to chat_history, and nothing containing the word Error is ever
printed. -/
theorem C3_transport_cex :
    ConversationShell.handle_streaming_response demoDecode
        [demoFrame " Hi there.", Event.raiseErr "Connection reset"]
        ⟨[⟨"user", "hi"⟩], [], ""⟩ =
      ⟨[⟨"user", "hi"⟩, ⟨"assistant", "Error querying OpenAI: Connection reset"⟩],
       [], "\n\x1b[1;3;95mResponse:\x1b[0;94m\n Hi there.\n\n\n"⟩ ∧
    listContains "Error".data
      "\n\x1b[1;3;95mResponse:\x1b[0;94m\n Hi there.\n\n\n".data = false ∧
    listContains "Hi there".data
      "Error querying OpenAI: Connection reset".data = false ∧
    (ConversationShell.handle_streaming_response demoDecode
        [demoFrame " Hi there.", Event.raiseErr "Connection reset"]
        ⟨[⟨"user", "hi"⟩], [], ""⟩).chat_history ≠ [⟨"user", "hi"⟩] := by
  decide

/-- Claim C3 (amended): on a transport failure the call returns the string
"Error querying OpenAI: " followed by the exception text, discarding the
partial text accumulated so far; handle_streaming_response then commits
that error string to the conversation context as an assistant turn, and
prints nothing beyond the header, the already-flushed segments, and the
blank-line separator — no error message is surfaced. -/
theorem C3_error_commit (decode : String → Except String String)
    (pre : List Event) (e : String) (post : List Event) (st : ShellState)
    (h : ∀ ev ∈ pre, goodFrame decode ev = true) :
    (ConversationShell.handle_streaming_response decode
        (pre ++ Event.raiseErr e :: post) st).chat_history =
      st.chat_history ++ [⟨"assistant", "Error querying OpenAI: " ++ e⟩] ∧
    (ConversationShell.handle_streaming_response decode
        (pre ++ Event.raiseErr e :: post) st).printed =
      (List.foldl ConversationShell.display_streaming_output
        { st with printed := st.printed ++
            format_markdown ConversationShell.respHeader ++ "\n" }
        (deltasOf decode pre)).printed ++ "\n\n" ++ "\n" := by
  rw [handle_fail_raise decode pre e post st h]
  constructor
  · show (List.foldl ConversationShell.display_streaming_output _ _).chat_history
        ++ _ = _
    rw [foldl_display_chat]
  · rfl

/-- Claim C3, witness: the stream of the counterexample. -/
theorem C3_error_commit_witness :
    (ConversationShell.handle_streaming_response demoDecode
        ([demoFrame " Hi there."] ++ Event.raiseErr "Connection reset" :: [])
        ⟨[⟨"user", "hi"⟩], [], ""⟩).chat_history =
      [⟨"user", "hi"⟩, ⟨"assistant", "Error querying OpenAI: Connection reset"⟩] ∧
    (ConversationShell.handle_streaming_response demoDecode
        ([demoFrame " Hi there."] ++ Event.raiseErr "Connection reset" :: [])
        ⟨[⟨"user", "hi"⟩], [], ""⟩).printed =
      "\n\x1b[1;3;95mResponse:\x1b[0;94m\n Hi there.\n\n\n" := by
  have h := C3_error_commit demoDecode [demoFrame " Hi there."]
    "Connection reset" [] ⟨[⟨"user", "hi"⟩], [], ""⟩ (by decide)
  exact ⟨h.1.trans (by decide), h.2.trans (by decide)⟩

/-- Claim C5 (the code drops the trailing partial segment): after a turn
whose single delta "Hello" never meets a terminator, stream completion
flushes nothing — the text stays in the accumulator, is never printed, and
the only output of the turn is the header and the separator, even though
the full (unstripped) text was committed to chat_history. -/
theorem C5_no_flush_eval :
    (ConversationShell.handle_streaming_response demoDecode [demoFrame "Hello"]
        (⟨[], [], ""⟩ : ShellState)).buffer = ["Hello"] ∧
    listContains "Hello".data
      (ConversationShell.handle_streaming_response demoDecode [demoFrame "Hello"]
        (⟨[], [], ""⟩ : ShellState)).printed.data = false ∧
    (ConversationShell.handle_streaming_response demoDecode [demoFrame "Hello"]
        (⟨[], [], ""⟩ : ShellState)).printed =
      "\n\x1b[1;3;95mResponse:\x1b[0;94m\n" ++ "\n\n\n" := by
  decide

end ShellStream

namespace ShellStream

/-- Claim C8: appending turn A then turn B leaves them as the last two
elements of the history in that order; every session operation
(handle_streaming_response, and default with either of its branches) only
appends a tail of new turns to chat_history, never mutating or reordering
the existing ones — in this pure model a snapshot taken earlier is a value
and cannot be changed retroactively, which the append-only equations make
explicit. -/
theorem C8_append_only :
    (∀ (h : List Msg) (A B : Msg),
      ctxAppend (ctxAppend h A) B = h ++ [A, B] ∧
      (ctxAppend (ctxAppend h A) B).drop h.length = [A, B]) ∧
    (∀ (decode : String → Except String String) (evs : List Event)
       (st : ShellState),
      ∃ tail,
        (ConversationShell.handle_streaming_response decode evs st).chat_history =
          st.chat_history ++ tail) ∧
    (∀ (decode : String → Except String String) (evs : List Event)
       (context : String) (st : ShellState) (line : String),
      ∃ tail,
        (ConversationShell.default decode evs context st line).chat_history =
          st.chat_history ++ tail) := by
  refine ⟨?_, ?_, ?_⟩
  · intro h A B
    refine ⟨by simp [ctxAppend], ?_⟩
    show ((h ++ [A]) ++ [B]).drop h.length = [A, B]
    rw [List.append_assoc]
    exact List.drop_left h ([A] ++ [B])
  · intro decode evs st
    obtain ⟨resp, hresp⟩ := handle_chat decode evs st
    exact ⟨[⟨"assistant", resp⟩], hresp⟩
  · intro decode evs context st line
    by_cases hs : "search ".data.isPrefixOf line.data = true
    · simp only [ConversationShell.default, hs, if_true]
      by_cases ha : pyStrip (String.mk (line.data.drop 7)) ≠ ""
      · by_cases hc : pyStrip context = ""
        · refine ⟨[], ?_⟩
          simp [ConversationShell.do_search, ha, hc]
        · obtain ⟨resp, hresp⟩ := handle_chat decode evs
            { st with
              printed := st.printed ++ "\nChecking the InterWebs for " ++
                String.mk (line.data.drop 7) ++ "...\n",
              chat_history := ctxAppend st.chat_history
                ⟨"system", "Web Search Context:\n" ++ context⟩ }
          refine ⟨[⟨"system", "Web Search Context:\n" ++ context⟩,
            ⟨"assistant", resp⟩], ?_⟩
          simp only [ConversationShell.do_search]
          rw [if_pos ha, if_neg hc, hresp]
          simp [ctxAppend]
      · refine ⟨[], ?_⟩
        simp [ConversationShell.do_search, ha]
    · simp only [ConversationShell.default, hs]
      obtain ⟨resp, hresp⟩ := handle_chat decode evs
        { st with chat_history := ctxAppend st.chat_history ⟨"user", line⟩ }
      refine ⟨[⟨"user", line⟩, ⟨"assistant", resp⟩], ?_⟩
      simp only [Bool.false_eq_true, if_false]
      rw [hresp]
      simp [ctxAppend]

/-- Claim C9: the display accumulator is cleared only by a
terminator-triggered flush, never at the start or the completion of a
stream.  A turn whose deltas never end in a terminator leaves the buffer
equal to the old buffer plus all those deltas and prints nothing beyond the
header and the separator, and the first flushed segment of the next turn is the
format of the join of that leftover with the new deltas — the leftover text
is prepended to the first segment printed during the next turn. -/
theorem C9_leftover_carry (decode : String → Except String String)
    (st : ShellState) (evs1 evs2 : List Event) (d2 : String)
    (h1 : ∀ ev ∈ evs1, goodFrame decode ev = true)
    (h2 : ∀ ev ∈ evs2, goodFrame decode ev = true)
    (hnt : ∀ d ∈ deltasOf decode evs1, endsTerm d = false)
    (hds2 : deltasOf decode evs2 = [d2])
    (ht2 : endsTerm d2 = true) :
    (ConversationShell.handle_streaming_response decode evs1 st).buffer =
      st.buffer ++ deltasOf decode evs1 ∧
    (ConversationShell.handle_streaming_response decode evs1 st).printed =
      st.printed ++ format_markdown ConversationShell.respHeader ++ "\n" ++
        "\n\n" ++ "\n" ∧
    (ConversationShell.handle_streaming_response decode evs2
        (ConversationShell.handle_streaming_response decode evs1 st)).buffer =
      [] ∧
    (ConversationShell.handle_streaming_response decode evs2
        (ConversationShell.handle_streaming_response decode evs1 st)).printed =
      (ConversationShell.handle_streaming_response decode evs1 st).printed ++
        format_markdown ConversationShell.respHeader ++ "\n" ++
        format_markdown
          (String.join (st.buffer ++ deltasOf decode evs1 ++ [d2])) ++
        "\n\n" ++ "\n" := by
  have hfold1 : List.foldl ConversationShell.display_streaming_output
      { st with printed := st.printed ++
          format_markdown ConversationShell.respHeader ++ "\n" }
      (deltasOf decode evs1) =
      { st with
        printed := st.printed ++
          format_markdown ConversationShell.respHeader ++ "\n",
        buffer := st.buffer ++ deltasOf decode evs1 } := by
    rw [foldl_display_nonterm _ _ hnt]
  have hbuf1 : (ConversationShell.handle_streaming_response decode evs1 st).buffer =
      st.buffer ++ deltasOf decode evs1 := by
    rw [handle_clean decode evs1 st h1]
    show (List.foldl ConversationShell.display_streaming_output _ _).buffer = _
    rw [hfold1]
  have hpr1 : (ConversationShell.handle_streaming_response decode evs1 st).printed =
      st.printed ++ format_markdown ConversationShell.respHeader ++ "\n" ++
        "\n\n" ++ "\n" := by
    rw [handle_clean decode evs1 st h1]
    show (List.foldl ConversationShell.display_streaming_output _ _).printed
        ++ "\n\n" ++ "\n" = _
    rw [hfold1]
  refine ⟨hbuf1, hpr1, ?_, ?_⟩
  · rw [handle_clean decode evs2 _ h2, hds2]
    show (List.foldl ConversationShell.display_streaming_output _ [d2]).buffer = _
    simp only [List.foldl]
    rw [display_term _ d2 ht2]
  · rw [handle_clean decode evs2 _ h2, hds2]
    show (List.foldl ConversationShell.display_streaming_output _ [d2]).printed
        ++ "\n\n" ++ "\n" = _
    simp only [List.foldl]
    rw [display_term _ d2 ht2]
    show (ConversationShell.handle_streaming_response decode evs1 st).printed ++
        format_markdown ConversationShell.respHeader ++ "\n" ++
        format_markdown (String.join
          ((ConversationShell.handle_streaming_response decode evs1 st).buffer
            ++ [d2])) ++ "\n\n" ++ "\n" = _
    rw [hbuf1]

/-- Claim C9, witness: turn one feeds "Hello" (no terminator), turn two
feeds " world."; the second turn prints "Hello world.". -/
theorem C9_leftover_carry_witness :
    (ConversationShell.handle_streaming_response demoDecode [demoFrame "Hello"]
        (⟨[], [], ""⟩ : ShellState)).buffer = ["Hello"] ∧
    (ConversationShell.handle_streaming_response demoDecode [demoFrame "Hello"]
        (⟨[], [], ""⟩ : ShellState)).printed =
      "\n\x1b[1;3;95mResponse:\x1b[0;94m\n\n\n\n" ∧
    (ConversationShell.handle_streaming_response demoDecode [demoFrame " world."]
        (ConversationShell.handle_streaming_response demoDecode [demoFrame "Hello"]
          (⟨[], [], ""⟩ : ShellState))).buffer = [] ∧
    (ConversationShell.handle_streaming_response demoDecode [demoFrame " world."]
        (ConversationShell.handle_streaming_response demoDecode [demoFrame "Hello"]
          (⟨[], [], ""⟩ : ShellState))).printed =
      "\n\x1b[1;3;95mResponse:\x1b[0;94m\n\n\n\n" ++
        "\n\x1b[1;3;95mResponse:\x1b[0;94m\n" ++ "Hello world." ++ "\n\n\n" := by
  obtain ⟨hb1, hp1, hb2, hp2⟩ := C9_leftover_carry demoDecode ⟨[], [], ""⟩
    [demoFrame "Hello"] [demoFrame " world."] " world."
    (by decide) (by decide) (by decide) (by decide) (by decide)
  exact ⟨hb1.trans (by decide), hp1.trans (by decide),
    hb2, hp2.trans (by decide)⟩

end ShellStream
